import Mathlib

/-!
Verification of the go-jira client library (`main.go`, package `jira`)
against its natural-language specification.

The development shallowly embeds the package: the pure classification and
decoding logic is translated into executable Lean definitions, the network
round trip is made explicit by passing the remote side's answer (a
`TransportResult`) as an argument, and the behaviour of the Go standard
library functions the package calls (`encoding/json.Unmarshal`,
`encoding/json.Marshal`, `strings.Split`, `strings.ToLower`,
`net/url.Parse`) is modelled by Lean functions that follow their documented
semantics on the inputs this package can produce.
-/

namespace GoJira

/-- A decoded JSON value, as produced by Go's `encoding/json.Unmarshal`
into `interface\x7b\x7d`: objects become maps (modelled as association
lists without duplicate keys, later duplicates overwriting earlier ones),
arrays become slices, numbers keep their source text (Go stores `float64`;
no claim depends on numeric value), strings, booleans and `null` are
themselves. -/
inductive JsonVal where
  | null
  | boolean (b : Bool)
  | num (raw : String)
  | str (s : String)
  | arr (elems : List JsonVal)
  | obj (members : List (String × JsonVal))

/-- Map lookup on the association-list model of a Go
`map[string]interface\x7b\x7d`. Indexing a missing key (or a `nil` map)
yields the zero value, modelled as `none`. -/
def lookupMember (ms : List (String × JsonVal)) (k : String) : Option JsonVal :=
  match ms with
  | [] => none
  | (k', v) :: rest => if k' = k then some v else lookupMember rest k

/-- Insertion into the association-list model of a Go map: an existing
binding for the key is overwritten in place, otherwise the binding is
appended. This realises `encoding/json`'s last-duplicate-wins semantics
for repeated object keys. -/
def insertMember (ms : List (String × JsonVal)) (k : String) (v : JsonVal) :
    List (String × JsonVal) :=
  match ms with
  | [] => [(k, v)]
  | (k', v') :: rest =>
      if k' = k then (k, v) :: rest else (k', v') :: insertMember rest k v

/-- The `\x7b` character, kept out of character-literal syntax. -/
def lbrace : Char := Char.ofNat 123

/-- The `\x7d` character, kept out of character-literal syntax. -/
def rbrace : Char := Char.ofNat 125

/-- JSON insignificant whitespace. -/
def isWs (c : Char) : Bool :=
  c = ' ' || c = '\t' || c = '\n' || c = '\r'

/-- Skip insignificant whitespace. -/
def skipWs : List Char → List Char
  | [] => []
  | c :: cs => if isWs c then skipWs cs else c :: cs

/-- Value of a hexadecimal digit. -/
def hexVal (c : Char) : Option Nat :=
  if '0' ≤ c ∧ c ≤ '9' then some (c.toNat - 48)
  else if 'a' ≤ c ∧ c ≤ 'f' then some (c.toNat - 87)
  else if 'A' ≤ c ∧ c ≤ 'F' then some (c.toNat - 55)
  else none

/-- Character for a `\uXXXX` code unit. Go's decoder replaces unpaired
surrogates with U+FFFD; surrogate-pair recombination is simplified to the
replacement character as well (no input in this development, and nothing
Go's `Marshal` emits for a string, contains surrogate escapes). -/
def charFromCode (n : Nat) : Char :=
  if 0xD800 ≤ n ∧ n < 0xE000 then Char.ofNat 0xFFFD else Char.ofNat n

/-- Named single-character escapes accepted inside JSON strings. -/
def escChar (e : Char) : Option Char :=
  if e = '"' then some '"'
  else if e = '\\' then some '\\'
  else if e = '/' then some '/'
  else if e = 'b' then some (Char.ofNat 8)
  else if e = 'f' then some (Char.ofNat 12)
  else if e = 'n' then some '\n'
  else if e = 'r' then some '\r'
  else if e = 't' then some '\t'
  else none

/-- Parse the contents of a JSON string after its opening quote, returning
the decoded characters and the input following the closing quote. Raw
control characters are rejected, as in Go's decoder. -/
def parseStringChars : List Char → Option (List Char × List Char)
  | [] => none
  | c :: cs =>
    if c = '"' then some ([], cs)
    else if c = '\\' then
      match cs with
      | [] => none
      | e :: cs' =>
        if e = 'u' then
          match cs' with
          | a :: b :: c2 :: d :: cs'' =>
            match hexVal a, hexVal b, hexVal c2, hexVal d with
            | some ha, some hb, some hc, some hd =>
              match parseStringChars cs'' with
              | some (s, r) =>
                  some (charFromCode (ha * 4096 + hb * 256 + hc * 16 + hd) :: s, r)
              | none => none
            | _, _, _, _ => none
          | _ => none
        else
          match escChar e with
          | some ec =>
            match parseStringChars cs' with
            | some (s, r) => some (ec :: s, r)
            | none => none
          | none => none
    else if c.toNat < 0x20 then none
    else
      match parseStringChars cs with
      | some (s, r) => some (c :: s, r)
      | none => none

/-- Decimal digit. -/
def isDigitC (c : Char) : Bool := '0' ≤ c && c ≤ '9'

/-- Longest digit run at the front of the input. -/
def spanDigits : List Char → List Char × List Char
  | [] => ([], [])
  | c :: cs =>
      if isDigitC c then
        let (d, r) := spanDigits cs
        (c :: d, r)
      else ([], c :: cs)

/-- Optional exponent part of a JSON number. -/
def parseExpPart (acc : List Char) (cs : List Char) :
    Option (List Char × List Char) :=
  match cs with
  | [] => some (acc, [])
  | e :: r =>
      if e = 'e' || e = 'E' then
        let (sgn, r1) :=
          match r with
          | '+' :: rr => (['+'], rr)
          | '-' :: rr => (['-'], rr)
          | _ => (([] : List Char), r)
        match spanDigits r1 with
        | ([], _) => none
        | (d, r2) => some (acc ++ e :: (sgn ++ d), r2)
      else some (acc, cs)

/-- Optional fraction part of a JSON number, then the exponent. -/
def parseFracPart (acc : List Char) (cs : List Char) :
    Option (List Char × List Char) :=
  match cs with
  | '.' :: r =>
      (match spanDigits r with
       | ([], _) => none
       | (d, r2) => parseExpPart (acc ++ '.' :: d) r2)
  | _ => parseExpPart acc cs

/-- Parse a JSON number per RFC 8259 grammar, returning its source text. -/
def parseNumber (cs : List Char) : Option (List Char × List Char) :=
  let (neg, cs1) :=
    match cs with
    | '-' :: r => ((['-'] : List Char), r)
    | _ => (([] : List Char), cs)
  match cs1 with
  | [] => none
  | c :: r1 =>
      if c = '0' then parseFracPart (neg ++ ['0']) r1
      else if isDigitC c then
        let (d, r2) := spanDigits r1
        parseFracPart (neg ++ c :: d) r2
      else none

mutual

/-- Parse one JSON value, fuel-bounded. A fuel of `input length + 1`
always suffices, since every recursive descent first consumes at least one
character. -/
def parseVal (fuel : Nat) (cs : List Char) : Option (JsonVal × List Char) :=
  match fuel with
  | 0 => none
  | f + 1 =>
    match skipWs cs with
    | [] => none
    | c :: rest =>
      if c = '"' then
        match parseStringChars rest with
        | some (s, r) => some (.str (String.mk s), r)
        | none => none
      else if c = lbrace then
        match skipWs rest with
        | [] => none
        | c2 :: r2 =>
            if c2 = rbrace then some (.obj [], r2)
            else parseObjMembers f (c2 :: r2) []
      else if c = '[' then
        match skipWs rest with
        | [] => none
        | c2 :: r2 =>
            if c2 = ']' then some (.arr [], r2)
            else parseArrElems f (c2 :: r2) []
      else
        match c :: rest with
        | 'n' :: 'u' :: 'l' :: 'l' :: r => some (.null, r)
        | 't' :: 'r' :: 'u' :: 'e' :: r => some (.boolean true, r)
        | 'f' :: 'a' :: 'l' :: 's' :: 'e' :: r => some (.boolean false, r)
        | other =>
          match parseNumber other with
          | some (d, r) => some (.num (String.mk d), r)
          | none => none

/-- Parse the members of a JSON object after its opening brace (first
member onward), accumulating with map-overwrite semantics. -/
def parseObjMembers (fuel : Nat) (cs : List Char)
    (acc : List (String × JsonVal)) : Option (JsonVal × List Char) :=
  match fuel with
  | 0 => none
  | f + 1 =>
    match skipWs cs with
    | [] => none
    | c :: rest =>
      if c = '"' then
        match parseStringChars rest with
        | none => none
        | some (k, r2) =>
          match skipWs r2 with
          | ':' :: r3 =>
            (match parseVal f r3 with
             | none => none
             | some (v, r4) =>
               let acc2 := insertMember acc (String.mk k) v
               match skipWs r4 with
               | ',' :: r5 => parseObjMembers f r5 acc2
               | c2 :: r5 => if c2 = rbrace then some (.obj acc2, r5) else none
               | [] => none)
          | _ => none
      else none

/-- Parse the elements of a JSON array after its opening bracket (first
element onward). -/
def parseArrElems (fuel : Nat) (cs : List Char) (acc : List JsonVal) :
    Option (JsonVal × List Char) :=
  match fuel with
  | 0 => none
  | f + 1 =>
    match parseVal f cs with
    | none => none
    | some (v, r) =>
      match skipWs r with
      | ',' :: r2 => parseArrElems f r2 (acc ++ [v])
      | c :: r2 => if c = ']' then some (.arr (acc ++ [v]), r2) else none
      | [] => none

end

/-- Parse a complete JSON document: one value, with only whitespace
allowed after it (Go's `Unmarshal` rejects trailing data). `none` models
an `Unmarshal` syntax error. -/
def parseJson (s : String) : Option JsonVal :=
  match parseVal (s.length + 1) s.toList with
  | some (v, rest) => if skipWs rest = [] then some v else none
  | none => none

/-- The structured error type of the package (`type Error struct` in
`main.go`): HTTP status code, status line, and message. -/
structure Error where
  StatusCode : Nat
  Status : String
  Message : String

/-- The values of type `error` that the package's operations can return:
the package's own `Error` struct, an error from the HTTP transport
(`http.Client.Do` / body read), a `json.Unmarshal` error, or a
`*runtime.TypeAssertionError` recovered from a failed type assertion. -/
inductive GoError where
  | jiraError (e : Error)
  | transportError (msg : String)
  | unmarshalError (msg : String)
  | typeAssertionError (msg : String)

/-- A Go panic value. A failed type assertion panics with a
`*runtime.TypeAssertionError`, which implements the `error` interface;
panics carrying a value that does not implement `error` are also
representable, so that the recover handlers' own `r.(error)` assertion is
modelled rather than assumed. -/
inductive Panic where
  | typeAssertFail (desc : String)
  | otherValue (desc : String)

/-- Whether a panic value's dynamic type implements the `error`
interface. -/
def Panic.implementsError : Panic → Bool
  | .typeAssertFail _ => true
  | .otherValue _ => false

/-- An HTTP response as delivered to the client: status code, status line
(e.g. `"404 Not Found"`), and the fully-read body bytes. -/
structure HttpResponse where
  StatusCode : Nat
  Status : String
  Body : String

/-- The outcome of one network round trip, supplied by the environment:
either a transport-level failure from `jira.res.Do` or the body read, or a
received response. -/
inductive TransportResult where
  | netError (msg : String)
  | response (r : HttpResponse)

/-- The issue type of the package (`type Issue struct` in `main.go`). -/
structure Issue where
  Id : String
  Key : String
  Summary : String
  Project : String
  Data : List (String × JsonVal)

/-- An HTTP request as built by the package: method, path appended to the
base URL, and body bytes. -/
structure GoRequest where
  Method : String
  Path : String
  Body : String

/-- `Request` (`main.go` lines 133–168), given the network's answer: a
transport failure is returned as-is; a 404 response yields the structured
`Error` with message `"Not Found"` (the body is ignored); a response with
status code ≥ 500 yields the structured `Error` carrying the raw body
text; every other response is success and returns the raw body bytes. -/
def Request (t : TransportResult) : Except GoError String :=
  match t with
  | .netError m => .error (.transportError m)
  | .response r =>
      if r.StatusCode = 404 then
        .error (.jiraError ⟨r.StatusCode, r.Status, "Not Found"⟩)
      else if r.StatusCode ≥ 500 then
        .error (.jiraError ⟨r.StatusCode, r.Status, r.Body⟩)
      else
        .ok r.Body

/-- `json.Unmarshal(response, &rawData)` with
`rawData : map[string]interface\x7b\x7d`: invalid JSON is a syntax error,
a non-object top-level value is an `UnmarshalTypeError`, and a top-level
`null` leaves the map `nil` (no error; reads from a `nil` map yield zero
values, so it is modelled as the empty map). -/
def unmarshalMap (body : String) : Except GoError (List (String × JsonVal)) :=
  match parseJson body with
  | none => .error (.unmarshalError "invalid JSON")
  | some (.obj ms) => .ok ms
  | some .null => .ok []
  | some _ => .error (.unmarshalError "cannot unmarshal value into map")

/-- `json.Unmarshal(body, &rawData)` with
`rawData : interface\x7b\x7d`: any valid JSON document decodes, invalid
JSON is a syntax error. -/
def unmarshalAny (body : String) : Except GoError JsonVal :=
  match parseJson body with
  | none => .error (.unmarshalError "invalid JSON")
  | some v => .ok v

/-- The Go expression `v.(string)` applied to the result of a map index:
yields the string, or panics with a `*runtime.TypeAssertionError` when the
value is absent (`nil`) or not a string. -/
def assertStr (v : Option JsonVal) : Except Panic String :=
  match v with
  | some (.str s) => .ok s
  | _ => .error (.typeAssertFail "interface conversion: interface is not string")

/-- The Go expression `v.(map[string]interface\x7b\x7d)` applied to the
result of a map index: yields the map, or panics. -/
def assertMap (v : Option JsonVal) : Except Panic (List (String × JsonVal)) :=
  match v with
  | some (.obj ms) => .ok ms
  | _ => .error (.typeAssertFail "interface conversion: interface is not map")

/-- The Go expression `v.(map[string]interface\x7b\x7d)` applied directly
to an interface value. -/
def assertMapVal (v : JsonVal) : Except Panic (List (String × JsonVal)) :=
  match v with
  | .obj ms => .ok ms
  | _ => .error (.typeAssertFail "interface conversion: interface is not map")

/-- Lower-casing of one character, the ASCII case of Go's
`unicode.ToLower`. -/
def charLower (c : Char) : Char :=
  if 'A' ≤ c && c ≤ 'Z' then Char.ofNat (c.toNat + 32) else c

/-- Go's `strings.ToLower`, restricted to its ASCII behaviour (the full
function applies Unicode simple case mapping; the two agree on every
string this package's claims exercise). -/
def stringsToLower (s : String) : String :=
  String.mk (s.toList.map charLower)

/-- Split a character list at every occurrence of `sep`, returning the
first segment and the remaining segments. Mirrors Go's
`strings.Split(s, sep)` for a one-character separator, which always
returns at least one segment. -/
def splitChar1 (sep : Char) : List Char → List Char × List (List Char)
  | [] => ([], [])
  | c :: cs =>
      let (seg, rest) := splitChar1 sep cs
      if c = sep then ([], seg :: rest) else (c :: seg, rest)

/-- Go's `strings.Split(s, sep)` for a one-character separator: the list
of segments, never empty. -/
def stringsSplit (s : String) (sep : Char) : List String :=
  String.mk (splitChar1 sep s.toList).1 ::
    ((splitChar1 sep s.toList).2.map String.mk)

/-- Go's `strings.Join(elems, sep)`. -/
def stringsJoin (elems : List String) (sep : String) : String :=
  match elems with
  | [] => ""
  | [x] => x
  | x :: xs => x ++ sep ++ stringsJoin xs sep

/-- The comma-ok type assertion
`summary, ok := data["summary"].(string)` followed by the conditional
copy: the typed summary when present as a string, empty otherwise. -/
def summaryOf (data : List (String × JsonVal)) : String :=
  match lookupMember data "summary" with
  | some (.str s) => s
  | _ => ""

/-- The decoding phase of `GetIssue` (`main.go` lines 84–96), operating on
the unmarshalled field map. Each Go type assertion can panic; the panics
propagate to the deferred recover handler. `tmp[0]` is total because
`strings.Split` never returns an empty slice, so it is the head of the
segment list. String lower-casing follows Go's `strings.ToLower` (the two
agree on ASCII, the only alphabet exercised here). -/
def decodeIssue (rawData : List (String × JsonVal)) : Except Panic Issue :=
  match assertStr (lookupMember rawData "id") with
  | .error p => .error p
  | .ok id =>
    match assertStr (lookupMember rawData "key") with
    | .error p => .error p
    | .ok key =>
      let tmp := stringsSplit key '-'
      let project := stringsToLower (tmp.headD "")
      match assertMap (lookupMember rawData "fields") with
      | .error p => .error p
      | .ok data => .ok ⟨id, key, summaryOf data, project, data⟩

/-- The body of `GetIssue` under its deferred recover handler: request,
unmarshal, decode. Returned errors pass through; only decode-phase type
assertions can panic. -/
def GetIssueRun (t : TransportResult) : Except Panic (Except GoError Issue) :=
  match Request t with
  | .error e => .ok (.error e)
  | .ok body =>
    match unmarshalMap body with
    | .error e => .ok (.error e)
    | .ok rawData =>
      match decodeIssue rawData with
      | .ok issue => .ok (.ok issue)
      | .error p => .error p

/-- The deferred handler `if r := recover(); r != nil \x7b err = r.(error) \x7d`:
a normal result passes through; a recovered panic whose value implements
`error` becomes the returned error; a recovered panic whose value does not
implement `error` makes the handler's own assertion fail, an uncaught
fault, modelled as `none`. -/
def recoverToError {α : Type} (r : Except Panic (Except GoError α)) :
    Option (Except GoError α) :=
  match r with
  | .ok res => some res
  | .error (.typeAssertFail d) => some (.error (.typeAssertionError d))
  | .error (.otherValue _) => none

/-- The request `GetIssue` sends (`main.go` lines 71–73). -/
def GetIssueRequest (key : String) (fields : List String) : GoRequest :=
  ⟨"GET", "issue/" ++ key ++ "/?fields=" ++ stringsJoin fields ",", ""⟩

/-- `GetIssue` as a function of the network's answer: `some` of the
returned `(issue, err)` outcome, or `none` for an uncaught fault (which
never occurs, see the safety theorem). -/
def GetIssue (t : TransportResult) : Option (Except GoError Issue) :=
  recoverToError (GetIssueRun t)

/-- The decoding phase of `GetProjectTitle` (`main.go` line 113):
`rawData.(map[string]interface\x7b\x7d)["name"].(string)`. -/
def decodeProjectTitle (rawData : JsonVal) : Except Panic String :=
  match assertMapVal rawData with
  | .error p => .error p
  | .ok m => assertStr (lookupMember m "name")

/-- The request `GetProjectTitle` sends (`main.go` line 105). -/
def GetProjectTitleRequest (key : String) : GoRequest :=
  ⟨"GET", "project/" ++ key, ""⟩

/-- The body of `GetProjectTitle` under its deferred recover handler. -/
def GetProjectTitleRun (t : TransportResult) :
    Except Panic (Except GoError String) :=
  match Request t with
  | .error e => .ok (.error e)
  | .ok body =>
    match unmarshalAny body with
    | .error e => .ok (.error e)
    | .ok rawData =>
      match decodeProjectTitle rawData with
      | .ok title => .ok (.ok title)
      | .error p => .error p

/-- `GetProjectTitle` as a function of the network's answer. -/
def GetProjectTitle (t : TransportResult) : Option (Except GoError String) :=
  recoverToError (GetProjectTitleRun t)

/-- Lower-case hexadecimal digit, as used by Go's JSON encoder in
`\u00XX` escapes. -/
def hexDigit (n : Nat) : Char :=
  if n < 10 then Char.ofNat (48 + n) else Char.ofNat (87 + n)

/-- Go's `encoding/json` string-character encoding (HTML escaping on, its
default for `json.Marshal`): quote and backslash are backslash-escaped;
newline, carriage return and tab use their named escapes; other control
characters below U+0020 become `\u00XX`; `<`, `>`, `&`, U+2028 and U+2029
become `\u` escapes; everything else is emitted verbatim. -/
def goEncodeChar (c : Char) : List Char :=
  if c = '"' then ['\\', '"']
  else if c = '\\' then ['\\', '\\']
  else if c = '\n' then ['\\', 'n']
  else if c = '\r' then ['\\', 'r']
  else if c = '\t' then ['\\', 't']
  else if c.toNat < 0x20 then
    ['\\', 'u', '0', '0', hexDigit (c.toNat / 16), hexDigit (c.toNat % 16)]
  else if c = '<' then ['\\', 'u', '0', '0', '3', 'c']
  else if c = '>' then ['\\', 'u', '0', '0', '3', 'e']
  else if c = '&' then ['\\', 'u', '0', '0', '2', '6']
  else if c.toNat = 0x2028 then ['\\', 'u', '2', '0', '2', '8']
  else if c.toNat = 0x2029 then ['\\', 'u', '2', '0', '2', '9']
  else [c]

/-- Encoding of a whole string's characters. -/
def encodeChars : List Char → List Char
  | [] => []
  | c :: cs => goEncodeChar c ++ encodeChars cs

/-- Go's JSON string literal for `s`: the encoded characters between
double quotes. -/
def goQuote (s : String) : String :=
  String.mk ('"' :: (encodeChars s.toList ++ ['"']))

/-- `json.Marshal(comment\x7bData: msg\x7d)` for the local struct
`comment` whose single field serialises under the key `body`
(`main.go` lines 117–121): always succeeds for a string field, producing
`\x7b"body":<quoted msg>\x7d`. -/
def CommentBody (msg : String) : String :=
  "\x7b\"body\":" ++ goQuote msg ++ "\x7d"

/-- The request `Comment` sends (`main.go` line 125). -/
def CommentRequest (issue : String) (msg : String) : GoRequest :=
  ⟨"POST", "issue/" ++ issue ++ "/comment", CommentBody msg⟩

/-- `Comment` as a function of the network's answer: the response body is
discarded; only the error channel of `Request` is observed. -/
def Comment (t : TransportResult) : Except GoError Unit :=
  match Request t with
  | .error e => .error e
  | .ok _ => .ok ()

/-- A parsed URL, reduced to what the package observes: the scheme (empty
for a relative reference) and the remainder of the reference. -/
structure URL where
  Scheme : String
  Rest : String

/-- Go's `url.URL.IsAbs`: a URL is absolute exactly when it has a
scheme. -/
def URL.IsAbs (u : URL) : Bool := u.Scheme ≠ ""

/-- ASCII letter. -/
def isAlphaC (c : Char) : Bool :=
  ('a' ≤ c && c ≤ 'z') || ('A' ≤ c && c ≤ 'Z')

/-- ASCII control characters, rejected anywhere in a URL by
`net/url.Parse`. -/
def isCtl (c : Char) : Bool := c.toNat < 0x20 || c.toNat = 0x7f

/-- Go's `net/url` `getScheme`: scan for a `:` preceded only by scheme
characters (a letter first, then letters, digits, `+`, `-`, `.`). A
leading `:` is the error `missing protocol scheme`; any other shape means
the reference has no scheme and is returned whole. -/
def getSchemeGo (orig : String) : List Char → Nat → Except String (String × String)
  | [], _ => .ok ("", orig)
  | c :: cs, i =>
      if isAlphaC c then getSchemeGo orig cs (i + 1)
      else if isDigitC c || c = '+' || c = '-' || c = '.' then
        if i = 0 then .ok ("", orig) else getSchemeGo orig cs (i + 1)
      else if c = ':' then
        if i = 0 then .error "missing protocol scheme"
        else
          .ok (stringsToLower (String.mk (orig.toList.take i)),
               String.mk (orig.toList.drop (i + 1)))
      else .ok ("", orig)

/-- Split a character list at the first occurrence of `c`: the part
before it and the part after it (the whole list and `[]` when absent). -/
def cutAt (c : Char) (l : List Char) : List Char × List Char :=
  match l with
  | [] => ([], [])
  | x :: xs =>
      if x = c then ([], xs)
      else
        let (a, b) := cutAt c xs
        (x :: a, b)

/-- Validity of percent-escapes: every `%` must be followed by two hex
digits. -/
def validEscapes : List Char → Bool
  | [] => true
  | '%' :: a :: b :: rest =>
      (hexVal a).isSome && (hexVal b).isSome && validEscapes rest
  | '%' :: _ => false
  | _ :: rest => validEscapes rest

/-- Model of Go's `net/url.Parse`, which accepts both absolute URLs and
relative references (per its documentation) and fails on: a control
character anywhere, a `:` before any scheme character, a `:` inside the
first path segment of a scheme-less reference, and an invalid
percent-escape in the authority/path or fragment. Host-specific
validation (ports, brackets) is not modelled; no input in this
development exercises it. -/
def urlParse (rawURL : String) : Except String URL :=
  if rawURL.toList.any isCtl then
    .error "net/url: invalid control character in URL"
  else
    match getSchemeGo rawURL rawURL.toList 0 with
    | .error e => .error e
    | .ok (scheme, rest) =>
      let (beforeFrag, frag) := cutAt '#' rest.toList
      let (beforeQuery, _) := cutAt '?' beforeFrag
      if !validEscapes beforeQuery || !validEscapes frag then
        .error "invalid URL escape"
      else if scheme = "" then
        match beforeQuery with
        | '/' :: _ => .ok ⟨"", rest⟩
        | _ =>
            if (cutAt '/' beforeQuery).1.contains ':' then
              .error "first path segment in URL cannot contain a colon"
            else .ok ⟨"", rest⟩
      else .ok ⟨scheme, rest⟩

/-- The client value built by `New`: the parsed base URL and the
credentials. The wired HTTP client (dial timeout) has no observable pure
content and is not carried. -/
structure Jira where
  baseUrl : URL
  user : String
  pass : String

/-- `New` (`main.go` lines 40–61): parse the base URL with `url.Parse`,
propagating its error; otherwise construct the client. The timeout is
wired into the transport's dial step and does not affect construction
success. -/
def New (jiraUrl : String) (user : String) (pass : String)
    (timeout : Nat) : Except String Jira :=
  match urlParse jiraUrl with
  | .error e => .error e
  | .ok u => .ok ⟨u, user, pass⟩

/-! ## Helper lemmas -/

/-- A response that is neither 404 nor 5xx passes through `Request` as
success bytes. -/
theorem request_ok_of_not_special (r : HttpResponse)
    (h404 : r.StatusCode ≠ 404) (h5 : r.StatusCode < 500) :
    Request (.response r) = .ok r.Body := by
  simp only [Request, if_neg h404, if_neg (by omega : ¬ r.StatusCode ≥ 500)]

/-- The first segment produced by `splitChar1` is the run of characters
before the first separator. -/
theorem splitChar1_fst (sep : Char) (cs : List Char) :
    (splitChar1 sep cs).1 = cs.takeWhile (fun c => c != sep) := by
  induction cs with
  | nil => rfl
  | cons c cs ih =>
      simp only [splitChar1, List.takeWhile_cons]
      by_cases hc : c = sep
      · subst hc
        simp
      · simp [hc, ih]

/-- A list without the separator survives `takeWhile` whole. -/
theorem takeWhile_ne_of_not_mem (sep : Char) (l : List Char) (h : sep ∉ l) :
    l.takeWhile (fun c => c != sep) = l := by
  induction l with
  | nil => rfl
  | cons c cs ih =>
      simp only [List.mem_cons, not_or] at h
      simp only [List.takeWhile]
      have : (c != sep) = true := by
        simp only [bne_iff_ne, ne_eq]
        exact fun hc => h.1 hc.symm
      simp [this, ih h.2]

/-- Inversion of a successful `decodeIssue`: the project is the
lower-cased first `-`-segment of the key, and the typed summary is the
comma-ok projection of the field-bag. -/
theorem decodeIssue_ok_inv (raw : List (String × JsonVal)) (iss : Issue)
    (h : decodeIssue raw = .ok iss) :
    iss.Project = stringsToLower (String.mk ((splitChar1 '-' iss.Key.toList).1))
    ∧ iss.Summary = summaryOf iss.Data := by
  unfold decodeIssue at h
  cases hid : assertStr (lookupMember raw "id") with
  | error p => rw [hid] at h; exact absurd h (by simp)
  | ok id =>
    rw [hid] at h
    cases hkey : assertStr (lookupMember raw "key") with
    | error p => rw [hkey] at h; exact absurd h (by simp)
    | ok key =>
      rw [hkey] at h
      cases hf : assertMap (lookupMember raw "fields") with
      | error p => simp only [hf] at h; exact absurd h (by simp)
      | ok data =>
        simp only [hf] at h
        have h' := (Except.ok.injEq _ _).mp h
        subst h'
        exact ⟨rfl, rfl⟩

/-- Inversion of a successful `GetIssue`: the issue came from a
successful `decodeIssue` on some unmarshalled map. -/
theorem getIssue_ok_inv (t : TransportResult) (iss : Issue)
    (h : GetIssue t = some (.ok iss)) :
    ∃ raw, decodeIssue raw = .ok iss := by
  unfold GetIssue recoverToError at h
  split at h
  case h_2 => exact absurd h (by simp)
  case h_3 => exact absurd h (by simp)
  case h_1 res heq =>
    have hres : res = .ok iss := by simpa using h
    subst hres
    unfold GetIssueRun at heq
    split at heq
    case h_1 => exact absurd heq (by simp)
    case h_2 body hreq =>
      split at heq
      case h_1 => exact absurd heq (by simp)
      case h_2 raw hum =>
        split at heq
        case h_2 => exact absurd heq (by simp)
        case h_1 issue hdec =>
          have : issue = iss := by simpa using heq
          exact ⟨raw, this ▸ hdec⟩

/-! ## Claims -/

/-- C1: for every response with HTTP status 404, regardless of the
response body content, `Request` — and hence each of the public
operations `GetIssue`, `GetProjectTitle` and `Comment` — fails with a
structured `Error` whose `StatusCode` is 404, whose `Status` is the
response status line, and whose `Message` is exactly `"Not Found"`. -/
theorem request_404_structured_not_found (r : HttpResponse)
    (h : r.StatusCode = 404) :
    Request (.response r) = .error (.jiraError ⟨404, r.Status, "Not Found"⟩)
    ∧ GetIssue (.response r) =
        some (.error (.jiraError ⟨404, r.Status, "Not Found"⟩))
    ∧ GetProjectTitle (.response r) =
        some (.error (.jiraError ⟨404, r.Status, "Not Found"⟩))
    ∧ Comment (.response r) =
        .error (.jiraError ⟨404, r.Status, "Not Found"⟩) := by
  have hreq : Request (.response r) =
      .error (.jiraError ⟨404, r.Status, "Not Found"⟩) := by
    simp [Request, h]
  refine ⟨hreq, ?_, ?_, ?_⟩
  · simp only [GetIssue, GetIssueRun, hreq, recoverToError]
  · simp only [GetProjectTitle, GetProjectTitleRun, hreq, recoverToError]
  · simp only [Comment, hreq]

/-- Witness for C1 at a concrete 404 response whose body is non-empty
JSON: the body is ignored and the message is `"Not Found"`. -/
theorem request_404_structured_not_found_witness :
    Request (.response ⟨404, "404 Not Found", "\x7b\"errors\":\"gone\"\x7d"⟩) =
      .error (.jiraError ⟨404, "404 Not Found", "Not Found"⟩)
    ∧ GetIssue (.response ⟨404, "404 Not Found", "\x7b\"errors\":\"gone\"\x7d"⟩) =
        some (.error (.jiraError ⟨404, "404 Not Found", "Not Found"⟩))
    ∧ GetProjectTitle
        (.response ⟨404, "404 Not Found", "\x7b\"errors\":\"gone\"\x7d"⟩) =
        some (.error (.jiraError ⟨404, "404 Not Found", "Not Found"⟩))
    ∧ Comment (.response ⟨404, "404 Not Found", "\x7b\"errors\":\"gone\"\x7d"⟩) =
        .error (.jiraError ⟨404, "404 Not Found", "Not Found"⟩) :=
  request_404_structured_not_found
    ⟨404, "404 Not Found", "\x7b\"errors\":\"gone\"\x7d"⟩ rfl

/-- C2: for every response with HTTP status code ≥ 500, `Request` fails
with a structured `Error` whose `StatusCode` is the response's status
code, whose `Status` is the response status line, and whose `Message` is
exactly the raw response body text. -/
theorem request_5xx_structured_raw_body (r : HttpResponse)
    (h : 500 ≤ r.StatusCode) :
    Request (.response r) =
      .error (.jiraError ⟨r.StatusCode, r.Status, r.Body⟩) := by
  simp only [Request, if_neg (by omega : ¬ r.StatusCode = 404),
    ge_iff_le, if_pos h]

/-- Witness for C2: a 500 response with body `"server exploded"` yields
an `Error` with code 500 and message `"server exploded"`. -/
theorem request_5xx_structured_raw_body_witness :
    Request (.response ⟨500, "500 Internal Server Error", "server exploded"⟩) =
      .error (.jiraError ⟨500, "500 Internal Server Error", "server exploded"⟩) :=
  request_5xx_structured_raw_body
    ⟨500, "500 Internal Server Error", "server exploded"⟩ (by decide)

/-- C3: for every response whose HTTP status code is neither 404 nor
≥ 500 (including 400, 401, 403), `Request` succeeds and returns the raw
response body bytes unconditionally — in particular no JSON validity
check occurs at this layer, since the body is returned whether or not it
parses. -/
theorem request_other_status_success (r : HttpResponse)
    (h404 : r.StatusCode ≠ 404) (h5 : r.StatusCode < 500) :
    Request (.response r) = .ok r.Body :=
  request_ok_of_not_special r h404 h5

/-- Witness for C3 at a concrete 400 response whose body is not valid
JSON: the bytes still pass through as success. -/
theorem request_other_status_success_witness :
    Request (.response ⟨400, "400 Bad Request", "not json <<&"⟩) =
      .ok "not json <<&"
    ∧ parseJson "not json <<&" = none :=
  ⟨request_other_status_success ⟨400, "400 Bad Request", "not json <<&"⟩
      (by decide) (by decide), rfl⟩

/-- C4: for every issue-fetch response that `GetIssue` decodes
successfully, the resulting issue's `Project` is the lower-casing of the
segment of `Key` before the first `-`, and when `Key` contains no `-` the
`Project` is the lower-casing of the entire `Key` (not a failure). -/
theorem getIssue_project_derived (t : TransportResult) (iss : Issue)
    (h : GetIssue t = some (.ok iss)) :
    iss.Project =
      stringsToLower (String.mk (iss.Key.toList.takeWhile (fun c => c != '-')))
    ∧ ('-' ∉ iss.Key.toList → iss.Project = stringsToLower iss.Key) := by
  obtain ⟨raw, hdec⟩ := getIssue_ok_inv t iss h
  have hp := (decodeIssue_ok_inv raw iss hdec).1
  constructor
  · rw [hp, splitChar1_fst]
  · intro hnm
    rw [hp, splitChar1_fst, takeWhile_ne_of_not_mem '-' _ hnm]
    rfl

/-- Witness for C4: a response with key `"ABC-123"` yields project
`"abc"`. -/
theorem getIssue_project_derived_witness :
    GetIssue (.response ⟨200, "200 OK",
        "\x7b\"id\":\"9\",\"key\":\"ABC-123\",\"fields\":\x7b\x7d\x7d"⟩) =
      some (.ok ⟨"9", "ABC-123", "", "abc", []⟩)
    ∧ (⟨"9", "ABC-123", "", "abc", []⟩ : Issue).Project = "abc" :=
  ⟨rfl,
   (getIssue_project_derived
      (.response ⟨200, "200 OK",
        "\x7b\"id\":\"9\",\"key\":\"ABC-123\",\"fields\":\x7b\x7d\x7d"⟩)
      ⟨"9", "ABC-123", "", "abc", []⟩ rfl).1⟩

/-- Counterexample to C9 as stated: a `fields` object whose `summary`
entry is the JSON number `7` decodes successfully, the entry is retained
in the field-bag, but it does not equal the typed `Summary` (which stays
empty) — so "whenever the field-bag contains an entry under `summary`,
that entry equals the typed Summary field" fails. -/
theorem getIssue_summary_invariant_cex :
    GetIssue (.response ⟨200, "200 OK",
        "\x7b\"id\":\"1\",\"key\":\"A-1\",\"fields\":\x7b\"summary\":7\x7d\x7d"⟩) =
      some (.ok ⟨"1", "A-1", "", "a", [("summary", .num "7")]⟩)
    ∧ lookupMember [("summary", JsonVal.num "7")] "summary" =
        some (.num "7")
    ∧ JsonVal.num "7" ≠
        JsonVal.str (Issue.Summary ⟨"1", "A-1", "", "a", [("summary", .num "7")]⟩) :=
  ⟨rfl, rfl, fun h => JsonVal.noConfusion h⟩

/-- C9 (amended): every issue returned successfully by `GetIssue` has
`Project` equal to the lower-cased prefix of `Key` up to the first `-`,
and whenever the field-bag contains a *string* entry under `"summary"`,
that string equals the typed `Summary` field. -/
theorem getIssue_invariant (t : TransportResult) (iss : Issue)
    (h : GetIssue t = some (.ok iss)) :
    iss.Project =
      stringsToLower (String.mk (iss.Key.toList.takeWhile (fun c => c != '-')))
    ∧ (∀ s, lookupMember iss.Data "summary" = some (.str s) →
        iss.Summary = s) := by
  obtain ⟨raw, hdec⟩ := getIssue_ok_inv t iss h
  obtain ⟨hp, hs⟩ := decodeIssue_ok_inv raw iss hdec
  constructor
  · rw [hp, splitChar1_fst]
  · intro s hlk
    rw [hs]
    unfold summaryOf
    rw [hlk]

/-- Witness for amended C9: a summary present as a string is copied to
the typed field. -/
theorem getIssue_invariant_witness :
    GetIssue (.response ⟨200, "200 OK",
        "\x7b\"id\":\"2\",\"key\":\"XY-9\",\"fields\":\x7b\"summary\":\"s\"\x7d\x7d"⟩) =
      some (.ok ⟨"2", "XY-9", "s", "xy", [("summary", .str "s")]⟩)
    ∧ (⟨"2", "XY-9", "s", "xy", [("summary", .str "s")]⟩ : Issue).Summary = "s" :=
  ⟨rfl,
   (getIssue_invariant
      (.response ⟨200, "200 OK",
        "\x7b\"id\":\"2\",\"key\":\"XY-9\",\"fields\":\x7b\"summary\":\"s\"\x7d\x7d"⟩)
      ⟨"2", "XY-9", "s", "xy", [("summary", .str "s")]⟩ rfl).2 "s" rfl⟩

/-- Whether an indexed map value is present and a string (the success
condition of a `.(string)` assertion). -/
def isStrVal : Option JsonVal → Bool
  | some (.str _) => true
  | _ => false

/-- Whether an indexed map value is present and an object. -/
def isObjVal : Option JsonVal → Bool
  | some (.obj _) => true
  | _ => false

/-- An unmarshalled issue map that is missing `id`, `key` or `fields`, or
has one of them with the wrong dynamic type. -/
def badIssueShape (raw : List (String × JsonVal)) : Bool :=
  !isStrVal (lookupMember raw "id")
    || !isStrVal (lookupMember raw "key")
    || !isObjVal (lookupMember raw "fields")

/-- An unmarshalled project body that is not an object, or whose `name`
is missing or not a string. -/
def badProjectShape (v : JsonVal) : Bool :=
  match v with
  | .obj ms => !isStrVal (lookupMember ms "name")
  | _ => true

/-- A failed `.(string)` assertion on a value that is absent or not a
string. -/
theorem assertStr_err (o : Option JsonVal) (h : isStrVal o = false) :
    assertStr o =
      .error (.typeAssertFail "interface conversion: interface is not string") := by
  cases o with
  | none => rfl
  | some v =>
    cases v with
    | str s => simp [isStrVal] at h
    | null => rfl
    | boolean b => rfl
    | num n => rfl
    | arr l => rfl
    | obj m => rfl

/-- A present string value passes the `.(string)` assertion. -/
theorem assertStr_ok (o : Option JsonVal) (h : isStrVal o = true) :
    ∃ s, o = some (.str s) ∧ assertStr o = .ok s := by
  cases o with
  | none => simp [isStrVal] at h
  | some v =>
    cases v with
    | str s => exact ⟨s, rfl, rfl⟩
    | null => simp [isStrVal] at h
    | boolean b => simp [isStrVal] at h
    | num n => simp [isStrVal] at h
    | arr l => simp [isStrVal] at h
    | obj m => simp [isStrVal] at h

/-- A failed map assertion on a value that is absent or not an object. -/
theorem assertMap_err (o : Option JsonVal) (h : isObjVal o = false) :
    assertMap o =
      .error (.typeAssertFail "interface conversion: interface is not map") := by
  cases o with
  | none => rfl
  | some v =>
    cases v with
    | obj m => simp [isObjVal] at h
    | null => rfl
    | boolean b => rfl
    | num n => rfl
    | str s => rfl
    | arr l => rfl

/-- A bad issue shape makes `decodeIssue` panic with a type-assertion
failure. -/
theorem decodeIssue_err_of_bad (raw : List (String × JsonVal))
    (h : badIssueShape raw = true) :
    ∃ d, decodeIssue raw = .error (.typeAssertFail d) := by
  unfold decodeIssue
  cases hid : isStrVal (lookupMember raw "id") with
  | false => rw [assertStr_err _ hid]; exact ⟨_, rfl⟩
  | true =>
    obtain ⟨i, _, hia⟩ := assertStr_ok _ hid
    rw [hia]
    cases hkey : isStrVal (lookupMember raw "key") with
    | false => rw [assertStr_err _ hkey]; exact ⟨_, rfl⟩
    | true =>
      obtain ⟨k, _, hka⟩ := assertStr_ok _ hkey
      rw [hka]
      have hf : isObjVal (lookupMember raw "fields") = false := by
        unfold badIssueShape at h
        rw [hid, hkey] at h
        simpa using h
      rw [assertMap_err _ hf]
      exact ⟨_, rfl⟩

/-- A bad project-body shape makes `decodeProjectTitle` panic with a
type-assertion failure. -/
theorem decodeProjectTitle_err_of_bad (v : JsonVal)
    (h : badProjectShape v = true) :
    ∃ d, decodeProjectTitle v = .error (.typeAssertFail d) := by
  unfold decodeProjectTitle
  cases v with
  | obj ms =>
    have hn : isStrVal (lookupMember ms "name") = false := by
      unfold badProjectShape at h
      simpa using h
    simp only [assertMapVal]
    rw [assertStr_err _ hn]
    exact ⟨_, rfl⟩
  | null => exact ⟨_, rfl⟩
  | boolean b => exact ⟨_, rfl⟩
  | num n => exact ⟨_, rfl⟩
  | str s => exact ⟨_, rfl⟩
  | arr l => exact ⟨_, rfl⟩

/-- C5: for every success-bytes response body whose JSON object is
missing `id`, `key` or `fields` or has them with the wrong dynamic type,
`GetIssue` returns a decode error (the recovered type-assertion error) to
the caller rather than propagating an uncaught fault; likewise
`GetProjectTitle` when the body is not an object or `name` is missing or
not a string. -/
theorem decode_shape_errors_returned (r : HttpResponse)
    (h404 : r.StatusCode ≠ 404) (h5 : r.StatusCode < 500) :
    (∀ raw, unmarshalMap r.Body = .ok raw → badIssueShape raw = true →
      ∃ m, GetIssue (.response r) = some (.error (.typeAssertionError m)))
    ∧ (∀ v, unmarshalAny r.Body = .ok v → badProjectShape v = true →
      ∃ m, GetProjectTitle (.response r) =
        some (.error (.typeAssertionError m))) := by
  have hreq := request_ok_of_not_special r h404 h5
  constructor
  · intro raw hum hbad
    obtain ⟨d, hd⟩ := decodeIssue_err_of_bad raw hbad
    exact ⟨d, by simp only [GetIssue, GetIssueRun, hreq, hum, hd, recoverToError]⟩
  · intro v hum hbad
    obtain ⟨d, hd⟩ := decodeProjectTitle_err_of_bad v hbad
    exact ⟨d, by
      simp only [GetProjectTitle, GetProjectTitleRun, hreq, hum, hd,
        recoverToError]⟩

/-- Witness for C5: the empty JSON object body (missing all required
fields) makes both operations return a recovered type-assertion error. -/
theorem decode_shape_errors_returned_witness :
    (∃ m, GetIssue (.response ⟨200, "200 OK", "\x7b\x7d"⟩) =
      some (.error (.typeAssertionError m)))
    ∧ (∃ m, GetProjectTitle (.response ⟨200, "200 OK", "\x7b\x7d"⟩) =
      some (.error (.typeAssertionError m))) :=
  ⟨(decode_shape_errors_returned ⟨200, "200 OK", "\x7b\x7d"⟩
      (by decide) (by decide)).1 [] rfl rfl,
   (decode_shape_errors_returned ⟨200, "200 OK", "\x7b\x7d"⟩
      (by decide) (by decide)).2 (.obj []) rfl rfl⟩

/-- C6: on a success response whose body decodes to an object with string
`id` and `key` and object `fields`, `GetIssue` succeeds with the typed
summary given by the comma-ok projection: empty when `fields` lacks
`summary` (or has it with a non-string value) — no error is raised — and
equal to the `summary` string when present. -/
theorem getIssue_summary_optional (r : HttpResponse)
    (raw fb : List (String × JsonVal)) (i k : String)
    (h404 : r.StatusCode ≠ 404) (h5 : r.StatusCode < 500)
    (hum : unmarshalMap r.Body = .ok raw)
    (hid : lookupMember raw "id" = some (.str i))
    (hkey : lookupMember raw "key" = some (.str k))
    (hf : lookupMember raw "fields" = some (.obj fb)) :
    GetIssue (.response r) =
      some (.ok ⟨i, k, summaryOf fb,
        stringsToLower ((stringsSplit k '-').headD ""), fb⟩)
    ∧ (isStrVal (lookupMember fb "summary") = false → summaryOf fb = "")
    ∧ (∀ s, lookupMember fb "summary" = some (.str s) → summaryOf fb = s) := by
  have hreq := request_ok_of_not_special r h404 h5
  refine ⟨?_, ?_, ?_⟩
  · simp only [GetIssue, GetIssueRun, hreq, hum, decodeIssue, hid, hkey, hf,
      assertStr, assertMap, recoverToError]
  · intro h
    unfold summaryOf
    cases hlv : lookupMember fb "summary" with
    | none => rfl
    | some v =>
      cases v with
      | str s => rw [hlv] at h; simp [isStrVal] at h
      | null => rfl
      | boolean b => rfl
      | num n => rfl
      | arr l => rfl
      | obj m => rfl
  · intro s hs
    unfold summaryOf
    rw [hs]

/-- Witness for C6: the specified 200 body yields exactly
`Issue\x7bId:"10001", Key:"PROJ-7", Project:"proj", Summary:"Fix bug"\x7d`
with the field-bag holding the summary. -/
theorem getIssue_summary_optional_witness :
    GetIssue (.response ⟨200, "200 OK",
        "\x7b\"id\":\"10001\",\"key\":\"PROJ-7\",\"fields\":\x7b\"summary\":\"Fix bug\"\x7d\x7d"⟩) =
      some (.ok ⟨"10001", "PROJ-7", "Fix bug", "proj",
        [("summary", .str "Fix bug")]⟩) :=
  (getIssue_summary_optional
    ⟨200, "200 OK",
      "\x7b\"id\":\"10001\",\"key\":\"PROJ-7\",\"fields\":\x7b\"summary\":\"Fix bug\"\x7d\x7d"⟩
    [("id", .str "10001"), ("key", .str "PROJ-7"),
      ("fields", .obj [("summary", .str "Fix bug")])]
    [("summary", .str "Fix bug")] "10001" "PROJ-7"
    (by decide) (by decide) rfl rfl rfl rfl).1

/-- Every panic `assertStr` raises carries an error-implementing value. -/
theorem assertStr_panic_implements (o : Option JsonVal) (p : Panic)
    (h : assertStr o = .error p) : p.implementsError = true := by
  unfold assertStr at h
  split at h
  · exact absurd h (by simp)
  · cases h
    rfl

/-- Every panic `assertMap` raises carries an error-implementing value. -/
theorem assertMap_panic_implements (o : Option JsonVal) (p : Panic)
    (h : assertMap o = .error p) : p.implementsError = true := by
  unfold assertMap at h
  split at h
  · exact absurd h (by simp)
  · cases h
    rfl

/-- Every panic `assertMapVal` raises carries an error-implementing
value. -/
theorem assertMapVal_panic_implements (v : JsonVal) (p : Panic)
    (h : assertMapVal v = .error p) : p.implementsError = true := by
  unfold assertMapVal at h
  split at h
  · exact absurd h (by simp)
  · cases h
    rfl

/-- A panic escaping `decodeIssue` carries an error-implementing value. -/
theorem decodeIssue_panic_implements (raw : List (String × JsonVal))
    (p : Panic) (h : decodeIssue raw = .error p) :
    p.implementsError = true := by
  unfold decodeIssue at h
  split at h
  · exact assertStr_panic_implements _ _ (by rename_i heq; rw [heq]; simpa using h)
  · split at h
    · exact assertStr_panic_implements _ _ (by rename_i heq; rw [heq]; simpa using h)
    · split at h
      · exact assertMap_panic_implements _ _ (by rename_i heq; rw [heq]; simpa using h)
      · exact absurd h (by simp)

/-- A panic escaping `decodeProjectTitle` carries an error-implementing
value. -/
theorem decodeProjectTitle_panic_implements (v : JsonVal) (p : Panic)
    (h : decodeProjectTitle v = .error p) : p.implementsError = true := by
  unfold decodeProjectTitle at h
  split at h
  · exact assertMapVal_panic_implements _ _ (by rename_i heq; rw [heq]; simpa using h)
  · exact assertStr_panic_implements _ _ h

/-- A panic escaping the body of `GetIssue` came from `decodeIssue`. -/
theorem getIssueRun_panic (t : TransportResult) (p : Panic)
    (h : GetIssueRun t = .error p) :
    ∃ raw, decodeIssue raw = .error p := by
  unfold GetIssueRun at h
  split at h
  · exact absurd h (by simp)
  · split at h
    · exact absurd h (by simp)
    · split at h
      · exact absurd h (by simp)
      · cases h
        exact ⟨_, by assumption⟩

/-- A panic escaping the body of `GetProjectTitle` came from
`decodeProjectTitle`. -/
theorem getProjectTitleRun_panic (t : TransportResult) (p : Panic)
    (h : GetProjectTitleRun t = .error p) :
    ∃ v, decodeProjectTitle v = .error p := by
  unfold GetProjectTitleRun at h
  split at h
  · exact absurd h (by simp)
  · split at h
    · exact absurd h (by simp)
    · split at h
      · exact absurd h (by simp)
      · cases h
        exact ⟨_, by assumption⟩

/-- C10: every panic raised during the decoding phase of `GetIssue` or
`GetProjectTitle` carries a value that implements the `error` interface
(a type-assertion failure), so the recover handlers' own `r.(error)`
assertion never faults and both operations are total functions from
transport results to result-or-error pairs. -/
theorem decode_panics_implement_error :
    (∀ raw p, decodeIssue raw = .error p → p.implementsError = true)
    ∧ (∀ v p, decodeProjectTitle v = .error p → p.implementsError = true)
    ∧ (∀ t, (GetIssue t).isSome = true ∧ (GetProjectTitle t).isSome = true) := by
  refine ⟨decodeIssue_panic_implements, decodeProjectTitle_panic_implements, ?_⟩
  intro t
  constructor
  · unfold GetIssue recoverToError
    cases hrun : GetIssueRun t with
    | ok res => rfl
    | error p =>
      obtain ⟨raw, hdec⟩ := getIssueRun_panic t p hrun
      have := decodeIssue_panic_implements raw p hdec
      cases p with
      | typeAssertFail d => rfl
      | otherValue d => simp [Panic.implementsError] at this
  · unfold GetProjectTitle recoverToError
    cases hrun : GetProjectTitleRun t with
    | ok res => rfl
    | error p =>
      obtain ⟨v, hdec⟩ := getProjectTitleRun_panic t p hrun
      have := decodeProjectTitle_panic_implements v p hdec
      cases p with
      | typeAssertFail d => rfl
      | otherValue d => simp [Panic.implementsError] at this

/-- Witness for C10 at concrete inputs: the panic on an empty map
implements `error`, and both operations deliver a result there. -/
theorem decode_panics_implement_error_witness :
    Panic.implementsError
      (.typeAssertFail "interface conversion: interface is not string") = true
    ∧ (GetIssue (.response ⟨200, "200 OK", "\x7b\x7d"⟩)).isSome = true
    ∧ (GetProjectTitle (.response ⟨200, "200 OK", "\x7b\x7d"⟩)).isSome = true :=
  ⟨decode_panics_implement_error.1 [] _ rfl,
   (decode_panics_implement_error.2.2 (.response ⟨200, "200 OK", "\x7b\x7d"⟩)).1,
   (decode_panics_implement_error.2.2 (.response ⟨200, "200 OK", "\x7b\x7d"⟩)).2⟩

/-- Counterexample to C7 as stated: `url.Parse` accepts relative
references, so `New "foo" ...` succeeds although `"foo"` is not an
absolute URL — the constructor does not fail exactly on non-absolute
inputs, and a successfully constructed client can hold a non-absolute
base URL. -/
theorem new_absolute_url_cex :
    New "foo" "u" "p" 0 = .ok ⟨⟨"", "foo"⟩, "u", "p"⟩
    ∧ URL.IsAbs ⟨"", "foo"⟩ = false :=
  ⟨rfl, by decide⟩

/-- C7 (amended): the constructor parses `baseUrl` as a URL reference,
absolute or relative, and fails — returning the parse error and no
client — exactly when the string is not parseable as a URL; every
successfully constructed client holds the parsed base URL (which need not
be absolute) together with the given credentials. -/
theorem new_parses_url_reference (jiraUrl user pass : String)
    (timeout : Nat) :
    (∀ e, New jiraUrl user pass timeout = .error e ↔
      urlParse jiraUrl = .error e)
    ∧ (∀ j, New jiraUrl user pass timeout = .ok j →
      urlParse jiraUrl = .ok j.baseUrl ∧ j.user = user ∧ j.pass = pass) := by
  unfold New
  cases hu : urlParse jiraUrl with
  | error e =>
      refine ⟨fun e' => ⟨fun h => by simpa using h, fun h => by simpa using h⟩,
        fun j hj => absurd hj (by simp)⟩
  | ok u =>
      refine ⟨fun e' => ⟨fun h => by simp at h, fun h => by simp at h⟩,
        fun j hj => ?_⟩
      have : j = ⟨u, user, pass⟩ := by simpa using hj.symm
      subst this
      exact ⟨rfl, rfl, rfl⟩

/-- Witness for amended C7: an absolute base URL parses, construction
succeeds, and the client holds the parsed URL and credentials. -/
theorem new_parses_url_reference_witness :
    New "http://example.com/x" "u" "p" 7 =
      .ok ⟨⟨"http", "//example.com/x"⟩, "u", "p"⟩
    ∧ urlParse "http://example.com/x" = .ok ⟨"http", "//example.com/x"⟩ :=
  ⟨rfl,
   ((new_parses_url_reference "http://example.com/x" "u" "p" 7).2
      ⟨⟨"http", "//example.com/x"⟩, "u", "p"⟩ rfl).1⟩

/-- The hexadecimal digit characters decode back to their values. -/
theorem hexVal_hexDigit (n : Nat) (h : n < 16) : hexVal (hexDigit n) = some n := by
  have H : ∀ m : Fin 16, hexVal (hexDigit m.val) = some m.val := by decide
  exact H ⟨n, h⟩

/-- The string parser consumes a closing quote. -/
theorem psc_quote (rest : List Char) :
    parseStringChars ('"' :: rest) = some ([], rest) := by
  unfold parseStringChars
  simp

/-- The string parser passes an ordinary character through verbatim. -/
theorem psc_verbatim (c : Char) (rest : List Char) (h1 : ¬ c = '"')
    (h2 : ¬ c = '\\') (h3 : ¬ c.toNat < 0x20) :
    parseStringChars (c :: rest) =
      match parseStringChars rest with
      | some (s, r) => some (c :: s, r)
      | none => none := by
  conv_lhs => rw [parseStringChars.eq_def]
  simp [h1, h2, h3]

/-- The string parser decodes a named escape. -/
theorem psc_named_escape (e ec : Char) (rest : List Char) (hu : ¬ e = 'u')
    (he : escChar e = some ec) :
    parseStringChars ('\\' :: e :: rest) =
      match parseStringChars rest with
      | some (s, r) => some (ec :: s, r)
      | none => none := by
  conv_lhs => rw [parseStringChars.eq_def]
  simp [hu, he]

/-- The string parser decodes a four-digit unicode escape. -/
theorem psc_u_escape (d1 d2 d3 d4 : Char) (n1 n2 n3 n4 : Nat)
    (rest : List Char) (h1 : hexVal d1 = some n1) (h2 : hexVal d2 = some n2)
    (h3 : hexVal d3 = some n3) (h4 : hexVal d4 = some n4) :
    parseStringChars ('\\' :: 'u' :: d1 :: d2 :: d3 :: d4 :: rest) =
      match parseStringChars rest with
      | some (s, r) =>
          some (charFromCode (n1 * 4096 + n2 * 256 + n3 * 16 + n4) :: s, r)
      | none => none := by
  conv_lhs => rw [parseStringChars.eq_def]
  simp [h1, h2, h3, h4]

/-- Decoding inverts Go's JSON character encoding: the string parser
consumes `goEncodeChar c` and produces exactly `c`. -/
theorem parse_goEncodeChar (c : Char) (tail : List Char) :
    parseStringChars (goEncodeChar c ++ tail) =
      match parseStringChars tail with
      | some (s, r) => some (c :: s, r)
      | none => none := by
  by_cases h1 : c = '"'
  · subst h1
    exact psc_named_escape '"' '"' tail (by decide) rfl
  by_cases h2 : c = '\\'
  · subst h2
    exact psc_named_escape '\\' '\\' tail (by decide) rfl
  by_cases h3 : c = '\n'
  · subst h3
    exact psc_named_escape 'n' '\n' tail (by decide) rfl
  by_cases h4 : c = '\r'
  · subst h4
    exact psc_named_escape 'r' '\r' tail (by decide) rfl
  by_cases h5 : c = '\t'
  · subst h5
    exact psc_named_escape 't' '\t' tail (by decide) rfl
  by_cases h6 : c.toNat < 0x20
  · have henc : goEncodeChar c =
        ['\\', 'u', '0', '0', hexDigit (c.toNat / 16), hexDigit (c.toNat % 16)] := by
      unfold goEncodeChar
      simp [h1, h2, h3, h4, h5, h6]
    have hd : c.toNat / 16 < 16 := by omega
    have hm : c.toNat % 16 < 16 := Nat.mod_lt _ (by omega)
    rw [henc]
    rw [show (['\\', 'u', '0', '0', hexDigit (c.toNat / 16),
          hexDigit (c.toNat % 16)] ++ tail : List Char) =
        '\\' :: 'u' :: '0' :: '0' :: hexDigit (c.toNat / 16) ::
          hexDigit (c.toNat % 16) :: tail from by simp]
    rw [psc_u_escape '0' '0' _ _ 0 0 _ _ tail rfl rfl
      (hexVal_hexDigit _ hd) (hexVal_hexDigit _ hm)]
    have harith : 0 * 4096 + 0 * 256 + c.toNat / 16 * 16 + c.toNat % 16
        = c.toNat := by omega
    rw [harith]
    have hlow : ¬ (0xD800 ≤ c.toNat ∧ c.toNat < 0xE000) := by omega
    rw [show charFromCode c.toNat = c from by
      unfold charFromCode
      rw [if_neg hlow, Char.ofNat_toNat]]
  by_cases h7 : c = '<'
  · subst h7
    exact psc_u_escape '0' '0' '3' 'c' 0 0 3 12 tail rfl rfl rfl rfl
  by_cases h8 : c = '>'
  · subst h8
    exact psc_u_escape '0' '0' '3' 'e' 0 0 3 14 tail rfl rfl rfl rfl
  by_cases h9 : c = '&'
  · subst h9
    exact psc_u_escape '0' '0' '2' '6' 0 0 2 6 tail rfl rfl rfl rfl
  by_cases h10 : c.toNat = 0x2028
  · have hc : c = Char.ofNat 0x2028 := by rw [← h10, Char.ofNat_toNat]
    subst hc
    exact psc_u_escape '2' '0' '2' '8' 2 0 2 8 tail rfl rfl rfl rfl
  by_cases h11 : c.toNat = 0x2029
  · have hc : c = Char.ofNat 0x2029 := by rw [← h11, Char.ofNat_toNat]
    subst hc
    exact psc_u_escape '2' '0' '2' '9' 2 0 2 9 tail rfl rfl rfl rfl
  · have henc : goEncodeChar c = [c] := by
      unfold goEncodeChar
      simp [h1, h2, h3, h4, h5, h6, h7, h8, h9, h10, h11]
    rw [henc, List.singleton_append, psc_verbatim c tail h1 h2 h6]

/-- Decoding inverts the encoding of a whole string body: the parser
consumes the encoded characters up to a closing quote. -/
theorem parse_encodeChars (l rest : List Char) :
    parseStringChars (encodeChars l ++ ('"' :: rest)) = some (l, rest) := by
  induction l with
  | nil => rw [encodeChars, List.nil_append, psc_quote]
  | cons c l ih =>
      rw [encodeChars, List.append_assoc, parse_goEncodeChar, ih]

/-- The object key `body` parses back out of the encoded comment. -/
theorem parse_body_key (tail : List Char) :
    parseStringChars ('b' :: 'o' :: 'd' :: 'y' :: '"' :: tail) =
      some (['b', 'o', 'd', 'y'], tail) := by
  rw [psc_verbatim 'b' _ (by decide) (by decide) (by decide),
      psc_verbatim 'o' _ (by decide) (by decide) (by decide),
      psc_verbatim 'd' _ (by decide) (by decide) (by decide),
      psc_verbatim 'y' _ (by decide) (by decide) (by decide),
      psc_quote]

/-- A JSON string literal holding an encoded string parses to that
string. -/
theorem parseVal_str (f : Nat) (l rest : List Char) :
    parseVal (f + 1) ('"' :: (encodeChars l ++ ('"' :: rest))) =
      some (.str (String.mk l), rest) := by
  conv_lhs => rw [parseVal.eq_def]
  simp [skipWs, isWs, parse_encodeChars]

/-- The full comment document parses to the singleton object binding
`body` to the encoded message. -/
theorem parseVal_commentBody (f : Nat) (l : List Char) :
    parseVal (f + 3) (lbrace :: '"' :: 'b' :: 'o' :: 'd' :: 'y' :: '"' :: ':' ::
      ('"' :: (encodeChars l ++ ('"' :: [rbrace])))) =
    some (.obj [("body", .str (String.mk l))], []) := by
  conv_lhs => rw [parseVal.eq_def]
  simp only [show f + 3 = (f + 2) + 1 from rfl]
  simp [skipWs, isWs, lbrace, rbrace]
  conv_lhs => rw [parseObjMembers.eq_def]
  simp only [show f + 2 = (f + 1) + 1 from rfl]
  simp [skipWs, isWs, lbrace, rbrace, parse_body_key, parseVal_str, insertMember]

/-- The encoded comment body is precisely the JSON document for the
object `\x7bbody: msg\x7d`: parsing it back yields that object, for every
message. -/
theorem parseJson_commentBody (msg : String) :
    parseJson (CommentBody msg) = some (.obj [("body", .str msg)]) := by
  have hdata : (CommentBody msg).toList =
      lbrace :: '"' :: 'b' :: 'o' :: 'd' :: 'y' :: '"' :: ':' ::
        ('"' :: (encodeChars msg.toList ++ ('"' :: [rbrace]))) := by
    show (CommentBody msg).data = _
    unfold CommentBody goQuote
    rw [String.data_append, String.data_append]
    rw [show ("\x7b\"body\":" : String).data =
        [lbrace, '"', 'b', 'o', 'd', 'y', '"', ':'] from by decide]
    rw [show ("\x7d" : String).data = [rbrace] from by decide]
    simp [String.toList]
  have hlen2 : 2 ≤ (CommentBody msg).length := by
    have h := congrArg List.length hdata
    simp only [String.toList, List.length_cons, List.length_append,
      List.length_singleton] at h
    show 2 ≤ (CommentBody msg).data.length
    omega
  obtain ⟨f, hf⟩ : ∃ f, (CommentBody msg).length + 1 = f + 3 :=
    ⟨(CommentBody msg).length - 2, by omega⟩
  unfold parseJson
  rw [hf, hdata, parseVal_commentBody f msg.toList]
  simp [skipWs]

/-- C8: for every issue identifier and message, `Comment` POSTs to
`issue/<issue>/comment` a body that is exactly the JSON encoding of the
object `\x7b"body": message\x7d` — parsing the encoded bytes recovers
precisely that object — and on any success-classified response (any
status other than 404 and 5xx, e.g. 200/201/204) it returns no error,
discarding the response body. -/
theorem comment_encodes_and_succeeds (issue msg : String) (r : HttpResponse)
    (h404 : r.StatusCode ≠ 404) (h5 : r.StatusCode < 500) :
    CommentRequest issue msg =
      ⟨"POST", "issue/" ++ issue ++ "/comment", CommentBody msg⟩
    ∧ parseJson (CommentBody msg) = some (.obj [("body", .str msg)])
    ∧ Comment (.response r) = .ok () := by
  refine ⟨rfl, parseJson_commentBody msg, ?_⟩
  unfold Comment
  rw [request_ok_of_not_special r h404 h5]

/-- Witness for C8: `Comment("ISSUE-1", "hello")` sends the body
`\x7b"body":"hello"\x7d`, and a 201 response yields no error. -/
theorem comment_encodes_and_succeeds_witness :
    CommentBody "hello" = "\x7b\"body\":\"hello\"\x7d"
    ∧ parseJson (CommentBody "hello") = some (.obj [("body", .str "hello")])
    ∧ Comment (.response ⟨201, "201 Created", "ignored"⟩) = .ok () :=
  ⟨rfl,
   (comment_encodes_and_succeeds "ISSUE-1" "hello"
      ⟨201, "201 Created", "ignored"⟩ (by decide) (by decide)).2.1,
   (comment_encodes_and_succeeds "ISSUE-1" "hello"
      ⟨201, "201 Created", "ignored"⟩ (by decide) (by decide)).2.2⟩

end GoJira
